import Mathlib

/-!
Verification of the invoke-record core of bp-diff-tool.

The visible fragment of the repository is the header
src/backend/diff_c/invoke.h, which fixes the data model (struct invoke,
MAX_CALL_TARGETS) and the signatures of the four operations.  The bodies
(invoke.c) and the method descriptor header (method.h) are not part of the
fragment, so the operation bodies below are modelled from the spec, while
the struct layout and the declared C signatures come from invoke.h.
-/

/-- A possibly-null pointer to an external method descriptor
(method_t* from the absent method.h): none models NULL, some n a live
method identity.  Method descriptors are referenced, never owned, so an
abstract identity suffices. -/
abbrev method_ptr : Type := Option Nat

/-- The fixed capacity of the resolved-target array, from invoke.h line 8:
#define MAX_CALL_TARGETS 1000. -/
def MAX_CALL_TARGETS : Int := 1000

/-- The invoke record, from struct invoke in invoke.h.  The C array
method_t* targets[MAX_CALL_TARGETS] together with int target_count is
modelled as the list of the first target_count entries of the array plus
the count kept as a separate integer field, exactly as the struct keeps
them as two separate members.  The char* bci and the struct invoke* next
link are nullable, hence Option. -/
structure invoke_t where
  id : Int
  method : method_ptr
  target : method_ptr
  bci : Option String
  is_direct : Bool
  targets : List method_ptr
  target_count : Int
  next : Option Nat
  deriving DecidableEq

/-- Modelled from the spec: the body of invoke_create lives in the absent
invoke.c.  Per the spec, creation yields a record whose fields echo the
construction inputs, with an empty resolved-target sequence, target count
0 and the next link unset. -/
def createRecord (id : Int) (method target : method_ptr) (bci : Option String)
    (is_direct : Bool) : invoke_t :=
  { id := id, method := method, target := target, bci := bci,
    is_direct := is_direct, targets := [], target_count := 0, next := none }

/-- Modelled from the spec: invoke_create allocates the record and, on
allocation failure, propagates a construction failure as a null result
rather than a partially initialized record.  The allocOk argument models
whether the single allocation succeeds. -/
def invoke_create (allocOk : Bool) (id : Int) (method target : method_ptr)
    (bci : Option String) (is_direct : Bool) : Option invoke_t :=
  if allocOk then some (createRecord id method target bci is_direct) else none

/-- Modelled from the spec: the body of invoke_add_call_target lives in
the absent invoke.c.  Per the spec, below capacity the target is appended
in call order and the target count incremented; at capacity the operation
fails with a capacity-exceeded condition, leaving the sequence and the
count unchanged and writing nothing past the fixed bound.  The target
value itself is not validated.  The header declares the C function as
returning void, so this state transition is the whole effect of a call. -/
def invoke_add_call_target (inv : invoke_t) (target : method_ptr) : invoke_t :=
  if inv.target_count < MAX_CALL_TARGETS then
    { inv with targets := inv.targets ++ [target],
               target_count := inv.target_count + 1 }
  else
    inv

/-- The full observable outcome of one C call to invoke_add_call_target:
the updated pointee state together with the value returned to the caller,
which by the declared prototype in invoke.h (void return, no out
parameter) is the unit value in every case. -/
def invoke_add_call_target_call (inv : invoke_t) (target : method_ptr) :
    invoke_t × Unit :=
  (invoke_add_call_target inv target, ())

/-- A sequence of invoke_add_call_target calls applied in order. -/
def addAll (inv : invoke_t) (ts : List method_ptr) : invoke_t :=
  ts.foldl invoke_add_call_target inv

/-- Rendering of one method reference for diagnostic output. -/
def methodStr (m : method_ptr) : String :=
  match m with
  | none => "null"
  | some n => toString n

/-- Modelled from the spec: the body of invoke_print lives in the absent
invoke.c.  Per the spec it renders id, containing method, declared target,
site offset, directness and the full resolved-target list, and performs no
mutation; the call is modelled as producing the rendered text together
with the record state after the call. -/
def invoke_print (inv : invoke_t) : String × invoke_t :=
  (toString inv.id ++ " " ++ methodStr inv.method ++ " "
    ++ methodStr inv.target ++ " " ++ (inv.bci.getD "null") ++ " "
    ++ toString inv.is_direct ++ " ["
    ++ String.intercalate ", " (inv.targets.map methodStr) ++ "]",
   inv)

/-- Records reachable by a successful creation followed by any finite
sequence of add-call-target operations. -/
inductive Reachable : invoke_t → Prop
  | created (id : Int) (method target : method_ptr) (bci : Option String)
      (is_direct : Bool) :
      Reachable (createRecord id method target bci is_direct)
  | added (inv : invoke_t) (t : method_ptr) :
      Reachable inv → Reachable (invoke_add_call_target inv t)

/-- A freshly created sample record used as a concrete input. -/
def freshRec : invoke_t := createRecord 1 (some 1) (some 2) (some "14") false

/-- The same field values as freshRec, written as a separate literal. -/
def freshRec2 : invoke_t :=
  { id := 1, method := some 1, target := some 2, bci := some "14",
    is_direct := false, targets := [], target_count := 0, next := none }

/-- A sample record at capacity: target_count equals MAX_CALL_TARGETS and
the target array is fully populated. -/
def fullRec : invoke_t :=
  { freshRec with targets := List.replicate 1000 (some 1),
                  target_count := 1000 }

/-- A sample direct call-site record already carrying one resolved target. -/
def directRec : invoke_t :=
  { freshRec with is_direct := true, targets := [some 9], target_count := 1 }

/-- Order-preserving effect of a sequence of additions on any record whose
count field agrees with its target-list length and which has room for the
whole sequence. -/
theorem addAll_spec (ts : List method_ptr) (inv : invoke_t)
    (hcount : inv.target_count = (inv.targets.length : Int))
    (hle : (inv.targets.length : Int) + ts.length ≤ MAX_CALL_TARGETS) :
    (addAll inv ts).targets = inv.targets ++ ts ∧
    (addAll inv ts).target_count = inv.target_count + ts.length := by
  induction ts generalizing inv with
  | nil => simp [addAll]
  | cons t rest ih =>
    have hlt : inv.target_count < MAX_CALL_TARGETS := by
      simp only [List.length_cons] at hle
      push_cast at hle
      omega
    have hAll : addAll inv (t :: rest) =
        addAll (invoke_add_call_target inv t) rest := rfl
    have htg : (invoke_add_call_target inv t).targets = inv.targets ++ [t] := by
      simp [invoke_add_call_target, hlt]
    have hct : (invoke_add_call_target inv t).target_count =
        inv.target_count + 1 := by
      simp [invoke_add_call_target, hlt]
    have h1 : (invoke_add_call_target inv t).target_count =
        ((invoke_add_call_target inv t).targets.length : Int) := by
      rw [htg, hct, hcount]
      simp only [List.length_append, List.length_cons, List.length_nil]
      push_cast
      omega
    have h2 : ((invoke_add_call_target inv t).targets.length : Int) +
        (rest.length : Int) ≤ MAX_CALL_TARGETS := by
      rw [htg]
      simp only [List.length_append, List.length_cons, List.length_nil]
      simp only [List.length_cons] at hle
      push_cast at hle ⊢
      omega
    obtain ⟨ha, hb⟩ := ih _ h1 h2
    constructor
    · rw [hAll, ha, htg]
      simp
    · rw [hAll, hb, hct]
      simp only [List.length_cons]
      push_cast
      omega

/-- C1: for every record whose target count equals MAX_CALL_TARGETS, a call
to invoke_add_call_target takes the capacity-exceeded branch and leaves the
resolved-target sequence and the target count unchanged; in particular it
never extends the sequence past the fixed bound. -/
theorem add_call_target_at_capacity_unchanged (inv : invoke_t)
    (t : method_ptr) (h : inv.target_count = MAX_CALL_TARGETS) :
    (invoke_add_call_target inv t).targets = inv.targets ∧
    (invoke_add_call_target inv t).target_count = inv.target_count ∧
    (invoke_add_call_target inv t).targets.length = inv.targets.length := by
  have hnlt : ¬ inv.target_count < MAX_CALL_TARGETS := by omega
  simp [invoke_add_call_target, hnlt]

/-- C1 witness: the at-capacity record fullRec is left unchanged by an
addition. -/
theorem add_call_target_at_capacity_unchanged_witness :
    (invoke_add_call_target fullRec none).targets = fullRec.targets ∧
    (invoke_add_call_target fullRec none).target_count =
      fullRec.target_count ∧
    (invoke_add_call_target fullRec none).targets.length =
      fullRec.targets.length :=
  add_call_target_at_capacity_unchanged fullRec none rfl

/-- C2 counterexample: a capacity-exceeded call on the full record fullRec
fails (the record is unchanged) while a call on the fresh record freshRec
succeeds (the record changes), yet both calls return the identical value to
the caller, because invoke.h declares invoke_add_call_target as returning
void.  No result/error signal distinguishes the failure for the caller. -/
theorem add_call_target_void_return_no_signal :
    (invoke_add_call_target_call fullRec (some 5)).1 = fullRec ∧
    (invoke_add_call_target_call freshRec (some 5)).1 ≠ freshRec ∧
    (invoke_add_call_target_call fullRec (some 5)).2 =
      (invoke_add_call_target_call freshRec (some 5)).2 := by
  refine ⟨?_, ?_, rfl⟩
  · have hnlt : ¬ fullRec.target_count < MAX_CALL_TARGETS := by decide
    simp [invoke_add_call_target_call, invoke_add_call_target, hnlt]
  · have hlt : freshRec.target_count < MAX_CALL_TARGETS := by decide
    simp [invoke_add_call_target_call, invoke_add_call_target, hlt, freshRec,
      createRecord, MAX_CALL_TARGETS]

/-- C2 amended: every capacity-exceeded failure of invoke_add_call_target
leaves the record unchanged and is synchronous, but the declared interface
returns void, so the caller receives no result/error signal from the call
itself; the failure is observable only through the unchanged record state. -/
theorem add_call_target_failure_unsignalled (inv : invoke_t)
    (t : method_ptr) (h : ¬ inv.target_count < MAX_CALL_TARGETS) :
    (invoke_add_call_target_call inv t).1 = inv ∧
    (invoke_add_call_target_call inv t).2 = () := by
  constructor
  · simp [invoke_add_call_target_call, invoke_add_call_target, h]
  · rfl

/-- C2 amended witness: the full record fullRec exhibits the unsignalled
failure. -/
theorem add_call_target_failure_unsignalled_witness :
    (invoke_add_call_target_call fullRec (some 7)).1 = fullRec ∧
    (invoke_add_call_target_call fullRec (some 7)).2 = () :=
  add_call_target_failure_unsignalled fullRec (some 7) (by decide)

/-- C3: for all construction inputs, a successful invoke_create returns a
record whose id, method, target, bci and is_direct fields equal those
inputs exactly, whose target count is 0 with an empty resolved-target
sequence, and whose next link is unset. -/
theorem invoke_create_echoes_inputs (id : Int) (m t : method_ptr)
    (b : Option String) (d : Bool) :
    invoke_create true id m t b d =
      some { id := id, method := m, target := t, bci := b, is_direct := d,
             targets := [], target_count := 0, next := none } := rfl

/-- C4: starting from a freshly created record, a sequence of N calls to
invoke_add_call_target with N at most MAX_CALL_TARGETS (repeated targets
allowed, nothing deduplicated) yields exactly the added targets in call
order, and the target count equals N. -/
theorem create_then_addAll (id : Int) (m t : method_ptr) (b : Option String)
    (d : Bool) (ts : List method_ptr)
    (h : (ts.length : Int) ≤ MAX_CALL_TARGETS) :
    (addAll (createRecord id m t b d) ts).targets = ts ∧
    (addAll (createRecord id m t b d) ts).target_count = ts.length := by
  have h0 : (createRecord id m t b d).target_count =
      (((createRecord id m t b d).targets.length : Nat) : Int) := by
    simp [createRecord]
  have h1 : (((createRecord id m t b d).targets.length : Nat) : Int) +
      (ts.length : Int) ≤ MAX_CALL_TARGETS := by
    simpa [createRecord] using h
  obtain ⟨ha, hb⟩ := addAll_spec ts (createRecord id m t b d) h0 h1
  refine ⟨?_, ?_⟩
  · simpa [createRecord] using ha
  · rw [hb]
    simp [createRecord]

/-- C4 witness: three additions with a repeated target on a fresh record
yield the three entries in order and count 3. -/
theorem create_then_addAll_witness :
    (addAll (createRecord 1 (some 1) (some 2) (some "5") false)
      [some 3, some 3, some 4]).targets = [some 3, some 3, some 4] ∧
    (addAll (createRecord 1 (some 1) (some 2) (some "5") false)
      [some 3, some 3, some 4]).target_count = 3 :=
  create_then_addAll 1 (some 1) (some 2) (some "5") false
    [some 3, some 3, some 4] (by decide)

/-- C5: every record reachable by a creation followed by any sequence of
additions has 0 at most target_count and target_count at most
MAX_CALL_TARGETS, the bound the header fixes at 1000. -/
theorem reachable_count_bounds (inv : invoke_t) (h : Reachable inv) :
    0 ≤ inv.target_count ∧ inv.target_count ≤ MAX_CALL_TARGETS ∧
    MAX_CALL_TARGETS = 1000 := by
  induction h with
  | created id m t b d => simp [createRecord, MAX_CALL_TARGETS]
  | added inv t hr ih =>
    by_cases hc : inv.target_count < MAX_CALL_TARGETS
    · simp only [invoke_add_call_target, hc, if_true]
      refine ⟨by omega, by omega, ih.2.2⟩
    · simpa [invoke_add_call_target, hc] using ih

/-- C5 witness: a record reached by one creation and one addition has its
count within the bounds. -/
theorem reachable_count_bounds_witness :
    0 ≤ (invoke_add_call_target (createRecord 1 none none none true)
          (some 4)).target_count ∧
    (invoke_add_call_target (createRecord 1 none none none true)
      (some 4)).target_count ≤ MAX_CALL_TARGETS ∧
    MAX_CALL_TARGETS = 1000 :=
  reachable_count_bounds _
    (Reachable.added _ (some 4) (Reachable.created 1 none none none true))

/-- C6: a successful invoke_add_call_target changes only the target list
and the target count; id, method, target, bci, is_direct and next are
unchanged. -/
theorem add_call_target_frame (inv : invoke_t) (t : method_ptr)
    (h : inv.target_count < MAX_CALL_TARGETS) :
    (invoke_add_call_target inv t).id = inv.id ∧
    (invoke_add_call_target inv t).method = inv.method ∧
    (invoke_add_call_target inv t).target = inv.target ∧
    (invoke_add_call_target inv t).bci = inv.bci ∧
    (invoke_add_call_target inv t).is_direct = inv.is_direct ∧
    (invoke_add_call_target inv t).next = inv.next := by
  simp [invoke_add_call_target, h]

/-- C6 witness: the frame condition at the fresh record freshRec. -/
theorem add_call_target_frame_witness :
    (invoke_add_call_target freshRec (some 3)).id = freshRec.id ∧
    (invoke_add_call_target freshRec (some 3)).method = freshRec.method ∧
    (invoke_add_call_target freshRec (some 3)).target = freshRec.target ∧
    (invoke_add_call_target freshRec (some 3)).bci = freshRec.bci ∧
    (invoke_add_call_target freshRec (some 3)).is_direct =
      freshRec.is_direct ∧
    (invoke_add_call_target freshRec (some 3)).next = freshRec.next :=
  add_call_target_frame freshRec (some 3) (by decide)

/-- C7: on a record with is_direct true and count below the maximum,
invoke_add_call_target succeeds and appends, even when resolved targets
are already present: only capacity is checked, never the directness flag. -/
theorem add_call_target_ignores_directness (inv : invoke_t) (t : method_ptr)
    (hd : inv.is_direct = true) (h : inv.target_count < MAX_CALL_TARGETS) :
    (invoke_add_call_target inv t).targets = inv.targets ++ [t] ∧
    (invoke_add_call_target inv t).target_count = inv.target_count + 1 := by
  simp [invoke_add_call_target, h]

/-- C7 witness: a direct record already holding one target accepts a
second one. -/
theorem add_call_target_ignores_directness_witness :
    (invoke_add_call_target directRec (some 3)).targets =
      directRec.targets ++ [some 3] ∧
    (invoke_add_call_target directRec (some 3)).target_count =
      directRec.target_count + 1 :=
  add_call_target_ignores_directness directRec (some 3) (by decide) (by decide)

/-- C8: invoke_print is a pure observer: the record after the call equals
the record before, a second call on the same record renders the same text,
and any two records with the same field values render identical output. -/
theorem invoke_print_pure (inv : invoke_t) :
    (invoke_print inv).2 = inv ∧
    (invoke_print ((invoke_print inv).2)).1 = (invoke_print inv).1 ∧
    ∀ inv2 : invoke_t, inv.id = inv2.id → inv.method = inv2.method →
      inv.target = inv2.target → inv.bci = inv2.bci →
      inv.is_direct = inv2.is_direct → inv.targets = inv2.targets →
      inv.target_count = inv2.target_count → inv.next = inv2.next →
      (invoke_print inv).1 = (invoke_print inv2).1 := by
  refine ⟨rfl, rfl, ?_⟩
  intro inv2 h1 h2 h3 h4 h5 h6 h7 h8
  have heq : inv = inv2 := by
    cases inv
    cases inv2
    simp_all
  rw [heq]

/-- C8 witness: printing leaves freshRec unchanged, and the structurally
identical record freshRec2 renders the same output. -/
theorem invoke_print_pure_witness :
    (invoke_print freshRec).2 = freshRec ∧
    (invoke_print freshRec).1 = (invoke_print freshRec2).1 :=
  ⟨(invoke_print_pure freshRec).1,
   (invoke_print_pure freshRec).2.2 freshRec2 rfl rfl rfl rfl rfl rfl rfl rfl⟩

/-- C9: when allocation fails, invoke_create propagates the construction
failure as a null result; and whenever creation returns a record at all,
that record is the fully initialized one, never a partial record. -/
theorem invoke_create_alloc_failure (id : Int) (m t : method_ptr)
    (b : Option String) (d : Bool) :
    invoke_create false id m t b d = none ∧
    ∀ ok r, invoke_create ok id m t b d = some r →
      r = createRecord id m t b d := by
  refine ⟨rfl, ?_⟩
  intro ok r h
  cases ok with
  | false => simp [invoke_create] at h
  | true =>
    simp only [invoke_create, if_true, Option.some.injEq] at h
    exact h.symm

/-- C9 witness: a concrete failed allocation yields none, and a concrete
successful creation yields exactly the fully initialized record. -/
theorem invoke_create_alloc_failure_witness :
    invoke_create false 0 none none none false = none ∧
    createRecord 0 none none none false = createRecord 0 none none none false :=
  ⟨(invoke_create_alloc_failure 0 none none none false).1,
   (invoke_create_alloc_failure 0 none none none false).2 true
     (createRecord 0 none none none false) rfl⟩

/-- C10: invoke_add_call_target does not validate the target value: on any
record below capacity, a null method reference is appended to the
resolved-target sequence like any other value and the count is
incremented. -/
theorem add_call_target_accepts_null (inv : invoke_t)
    (h : inv.target_count < MAX_CALL_TARGETS) :
    (invoke_add_call_target inv none).targets = inv.targets ++ [none] ∧
    (invoke_add_call_target inv none).target_count =
      inv.target_count + 1 := by
  simp [invoke_add_call_target, h]

/-- C10 witness: adding a null target to the fresh record appends it and
increments the count. -/
theorem add_call_target_accepts_null_witness :
    (invoke_add_call_target freshRec none).targets =
      freshRec.targets ++ [none] ∧
    (invoke_add_call_target freshRec none).target_count =
      freshRec.target_count + 1 :=
  add_call_target_accepts_null freshRec (by decide)
